import Mathlib

/-!
Verification of the hwpx-rust table/paragraph pipeline.

Shallow embedding of:
- the break-aware text segmentation inside fill_cell_content
  (crates/hwp-core/src/viewer/markdown/document/bodytext/table.rs),
- the tab-stop expansion, attribute handling and event-stream section parser
  (crates/hwp-core/src/parser/hwpx/section.rs),
- the table-to-markdown / table-to-HTML materializers
  (crates/hwp-core/src/viewer/markdown/document/bodytext/table.rs).

Text is modelled as List Char (Rust iterates chars, not bytes).
Machine integers (u16/u32/usize) are modelled as Nat; the source only
subtracts with saturating_sub, which is Nat subtraction.
-/

/-! ## Stable sort (models Rust sort_by_key, which is stable) -/

/-- Insert x before the first element y with le x y = true.
Folding this from the right gives a stable insertion sort. -/
def insortLe {α : Type} (le : α → α → Bool) (x : α) : List α → List α
  | [] => [x]
  | y :: ys => if le x y then x :: y :: ys else y :: insortLe le x ys

/-- Stable sort: same sorted result and tie order as Rust sort_by_key. -/
def stableSortBy {α : Type} (le : α → α → Bool) (l : List α) : List α :=
  l.foldr (insortLe le) []

/-! ## Break-aware text segmentation

Models the ParaText handling in fill_cell_content, table.rs lines 393-461.
A ControlChar code is either PARA_BREAK, LINE_BREAK, or some other control
code (the numeric values of the codes never matter: the source only tests
membership in the two break codes). -/

inductive CtrlCode where
  | paraBreak : CtrlCode
  | lineBreak : CtrlCode
  | otherCtrl : CtrlCode
deriving DecidableEq

/-- A control character position: character offset plus code
(models ControlCharPosition entries of control_char_positions). -/
structure CtrlPos where
  position : Nat
  code : CtrlCode
deriving DecidableEq

/-- The predicate of table.rs lines 399-401 and 415-417:
code == PARA_BREAK or code == LINE_BREAK. -/
def isBreakCode : CtrlCode → Bool
  | .paraBreak => true
  | .lineBreak => true
  | .otherCtrl => false

/-- The break token inserted at a break position (table.rs lines 438-442). -/
def breakToken (useHtml : Bool) : List Char :=
  if useHtml then "<br>".toList else [' ']

/-- Cursor update after a break position (table.rs lines 447-451):
if pos.position is at least text_len the cursor moves to text_len,
else to pos.position + 1 (the in-band control character is consumed). -/
def advance_cursor (textLen offset : Nat) : Nat :=
  if offset ≥ textLen then textLen else offset + 1

/-- One iteration of the loop over sorted break positions
(table.rs lines 422-452). State is (accumulated output, cursor). -/
def segStep (useHtml : Bool) (text : List Char) (st : List Char × Nat)
    (p : CtrlPos) : List Char × Nat :=
  let textLen := text.length
  let acc :=
    if p.position > st.2 ∧ p.position ≤ textLen then
      st.1 ++ ((text.drop st.2).take (p.position - st.2))
    else st.1
  (acc ++ breakToken useHtml, advance_cursor textLen p.position)

/-- Processing of one ParaText record inside fill_cell_content
(table.rs lines 397-461): if the record has no break control characters the
text is appended unchanged; otherwise the break positions are filtered,
sorted by position and folded with segStep, and any remaining trailing text
is appended. -/
def processRun (useHtml : Bool) (text : List Char) (positions : List CtrlPos) :
    List Char :=
  if positions.any (fun p => isBreakCode p.code) then
    let sorted :=
      stableSortBy (fun a b => decide (a.position ≤ b.position))
        (positions.filter (fun p => isBreakCode p.code))
    let r := sorted.foldl (segStep useHtml text) ([], 0)
    if r.2 < text.length then r.1 ++ text.drop r.2 else r.1
  else text

/-! ## Tab-stop expansion (section.rs lines 98-150) -/

/-- Tab leader expansion (section.rs lines 120-141). Leader codes:
0 = none, 1 = solid, 2 = dash, 3 = dot. Width is in HWPUNIT. -/
def tab_text (leader width : Nat) : List Char :=
  if leader = 3 then List.replicate (max (min (width / 1200) 80) 3) '.'
  else if leader = 2 then List.replicate (max (min (width / 2400) 40) 2) '-'
  else if leader = 1 then List.replicate (max (min (width / 2400) 40) 2) '_'
  else ['\t']

/-! ## Theorems: segmenter scenarios -/

/-- Claim C9: segmenting any text with an empty break-marker list is the
identity: no break token is inserted and the text is returned unchanged
(the fast path of table.rs lines 399-407). -/
theorem c9_segment_empty_markers_identity (useHtml : Bool) (text : List Char) :
    processRun useHtml text [] = text := by
  simp [processRun]

/-- Claim C4 counterexample: on text ABCDE with line-break markers at
offsets 1 and 3 the segmenter emits A, break, C, break, E (the character
at each marker offset is consumed as the in-band control position), not
A, break, BC, break, DE as the claim states. With plain (non-HTML) output
the break token is a single space. -/
theorem c4_counterexample :
    processRun false ("ABCDE".toList)
        [⟨1, CtrlCode.lineBreak⟩, ⟨3, CtrlCode.lineBreak⟩] = "A C E".toList
    ∧ "A C E".toList ≠ "A BC DE".toList := by
  constructor
  · rfl
  · decide

/-- Claim C4 amended: for text ABCDE with line-break markers at offsets 1
and 3 the output is A, break, C, break, E: the slice before each marker
stops at the marker offset and the character at the offset itself is
consumed, so the next slice starts at offset + 1. Shown for both the plain
and the HTML break token. -/
theorem c4_amended_segments :
    processRun false ("ABCDE".toList)
        [⟨1, CtrlCode.lineBreak⟩, ⟨3, CtrlCode.lineBreak⟩] = "A C E".toList
    ∧ processRun true ("ABCDE".toList)
        [⟨1, CtrlCode.lineBreak⟩, ⟨3, CtrlCode.lineBreak⟩]
        = "A<br>C<br>E".toList := by
  constructor <;> rfl

/-- Claim C5 counterexample: the cursor rule of the source is
advance_cursor textLen offset = textLen whenever offset is at least
textLen (source condition: pos.position >= text_len), not only when the
offset equals the text length. At text length 5 and marker offset 7 the
cursor advances to 5, while the claim as stated (offset differs from the
length, so advance to offset + 1) requires 8. -/
theorem c5_counterexample :
    advance_cursor 5 7 = 5 ∧ (5 : Nat) ≠ 7 + 1 := by
  decide

/-- Claim C5 amended: the cursor advances to min (offset + 1, text length):
offset + 1 in the normal case, and only to the text length whenever the
offset is at least the text length (not merely equal to it). The second
conjunct is the trailing-break property as claimed: for any text with a
single line-break marker at offset = text length, the output is exactly
the text followed by one break token and no trailing slice. -/
theorem c5_amended_cursor_and_trailing_break :
    (∀ textLen offset : Nat,
        advance_cursor textLen offset = min (offset + 1) textLen)
    ∧ ∀ (useHtml : Bool) (text : List Char),
        processRun useHtml text [⟨text.length, CtrlCode.lineBreak⟩]
          = text ++ breakToken useHtml := by
  constructor
  · intro n k
    simp only [advance_cursor, Nat.min_def]
    split <;> split <;> omega
  · intro u T
    cases T with
    | nil => cases u <;> rfl
    | cons a t =>
      simp [processRun, stableSortBy, insortLe, segStep, advance_cursor,
        isBreakCode, List.take_length]

/-- Claim C5 witness: instantiating the amended theorem at text length 5,
offset 2 and at the concrete text AB with its trailing marker. -/
theorem c5_witness :
    advance_cursor 5 2 = min (2 + 1) 5
    ∧ processRun false ("AB".toList) [⟨2, CtrlCode.lineBreak⟩]
        = "AB".toList ++ breakToken false :=
  ⟨c5_amended_cursor_and_trailing_break.1 5 2,
   c5_amended_cursor_and_trailing_break.2 false ("AB".toList)⟩

/-- Claim C6: tab-stop expansion. No leader (code 0) gives a single tab
character; a dot leader (code 3) gives a run of dots of length
width / 1200 clamped to the range 3..80; a dash leader (code 2) gives a
run of dashes of length width / 2400 clamped to 2..40; a solid leader
(code 1) gives a run of underscores with the same division and clamp as
dash. In particular the dot count always lies in 3..80, and a width below
the per-character constant 1200 still yields exactly 3 dots. -/
theorem c6_tab_leader_expansion (width : Nat) :
    tab_text 0 width = ['\t']
    ∧ tab_text 3 width = List.replicate (max (min (width / 1200) 80) 3) '.'
    ∧ tab_text 2 width = List.replicate (max (min (width / 2400) 40) 2) '-'
    ∧ tab_text 1 width = List.replicate (max (min (width / 2400) 40) 2) '_'
    ∧ 3 ≤ (tab_text 3 width).length
    ∧ (tab_text 3 width).length ≤ 80
    ∧ (width < 1200 → (tab_text 3 width).length = 3) := by
  have h3 : tab_text 3 width = List.replicate (max (min (width / 1200) 80) 3) '.' := rfl
  refine ⟨rfl, h3, rfl, rfl, ?_, ?_, ?_⟩
  · rw [h3, List.length_replicate]
    exact Nat.le_max_right _ 3
  · rw [h3, List.length_replicate]
    exact max_le (min_le_right _ _) (by norm_num)
  · intro h
    have hz : width / 1200 = 0 := Nat.div_eq_of_lt h
    rw [h3, List.length_replicate, hz]
    decide

/-- Claim C6 witness: a dot-leader tab of width 600 (below the
per-character constant 1200) expands to exactly 3 dots. -/
theorem c6_witness : (tab_text 3 600).length = 3 :=
  (c6_tab_leader_expansion 600).2.2.2.2.2.2 (by decide)

/-! ## HWPX section parser (section.rs, parse_section_xml and helpers)

The event stream abstracts the already-decoded quick-xml events:
Empty (self-closing tag with attributes), Start, Text, End. Attribute
values arrive as raw strings (List Char). -/

/-- In-progress cell accumulator (section.rs lines 24-43, HwpxCell with its
Default of text empty, spans 1, no addresses). -/
structure HwpxCell where
  text : List Char
  col_span : Nat
  row_span : Nat
  col_addr : Option Nat
  row_addr : Option Nat
deriving DecidableEq

/-- HwpxCell::default (section.rs lines 33-43). -/
def defaultHwpxCell : HwpxCell := ⟨[], 1, 1, none, none⟩

/-- Resolved table cell as built by create_table_paragraph_with_spans
(section.rs lines 380-417): absolute addresses plus spans and content. -/
structure PCell where
  col_address : Nat
  row_address : Nat
  col_span : Nat
  row_span : Nat
  text : List Char
deriving DecidableEq

/-- Output paragraph, reduced to the three record shapes the parser emits:
a text paragraph (create_paragraph), a table paragraph with declared row
and column counts plus resolved cells (create_table_paragraph_with_spans),
or an image-reference paragraph (create_image_paragraph). -/
inductive Para where
  | textP : List Char → Para
  | tableP : Nat → Nat → List PCell → Para
  | imageP : List Char → Para
deriving DecidableEq

/-- Numeric value of a digit string. -/
def digitsVal (l : List Char) : Nat :=
  l.foldl (fun a c => a * 10 + (c.toNat - '0'.toNat)) 0

/-- Digit-only parse with an upper bound. -/
def parseDigits (bound : Nat) (l : List Char) : Option Nat :=
  if l ≠ [] ∧ l.all Char.isDigit then
    if digitsVal l ≤ bound then some (digitsVal l) else none
  else none

/-- Model of Rust str::parse for an unsigned integer type with maximum
value bound: an optional leading plus sign, then one or more ASCII digits,
value within bounds; anything else fails. -/
def parseNum (bound : Nat) (l : List Char) : Option Nat :=
  match l with
  | '+' :: rest => parseDigits bound rest
  | _ => parseDigits bound l

def u16Max : Nat := 65535

def u32Max : Nat := 4294967295

/-- cellSpan attribute handling (section.rs lines 151-165): colSpan and
rowSpan parse with fallback 1 on failure. -/
def applyCellSpanAttrs (cell : HwpxCell)
    (attrs : List (List Char × List Char)) : HwpxCell :=
  attrs.foldl (fun c kv =>
    if kv.1 = "colSpan".toList then
      { c with col_span := (parseNum u16Max kv.2).getD 1 }
    else if kv.1 = "rowSpan".toList then
      { c with row_span := (parseNum u16Max kv.2).getD 1 }
    else c) cell

/-- cellAddr attribute handling (section.rs lines 166-180): colAddr and
rowAddr are set to Some of the parsed value, with fallback 0 on failure
(value.parse().unwrap_or(0) wrapped in Some). -/
def applyCellAddrAttrs (cell : HwpxCell)
    (attrs : List (List Char × List Char)) : HwpxCell :=
  attrs.foldl (fun c kv =>
    if kv.1 = "colAddr".toList then
      { c with col_addr := some ((parseNum u16Max kv.2).getD 0) }
    else if kv.1 = "rowAddr".toList then
      { c with row_addr := some ((parseNum u16Max kv.2).getD 0) }
    else c) cell

/-- tab attribute extraction (section.rs lines 101-116): leader (u8) and
width (u32), each with fallback 0 on parse failure. -/
def tabAttrs (attrs : List (List Char × List Char)) : Nat × Nat :=
  attrs.foldl (fun p kv =>
    if kv.1 = "leader".toList then ((parseNum 255 kv.2).getD 0, p.2)
    else if kv.1 = "width".toList then (p.1, (parseNum u32Max kv.2).getD 0)
    else p) (0, 0)

/-- img attribute extraction (section.rs lines 184-190): the last
binaryItemIDRef value seen wins. -/
def imgRefAttrs (r : Option (List Char))
    (attrs : List (List Char × List Char)) : Option (List Char) :=
  attrs.foldl (fun acc kv =>
    if kv.1 = "binaryItemIDRef".toList then some kv.2 else acc) r

/-- ends_with on character lists. -/
def endsWithChars (l suffix : List Char) : Bool :=
  suffix == l.drop (l.length - suffix.length)

/-- Tag-name match used throughout the parser:
local_name.ends_with(colon-target) or local_name equals target. -/
def tagMatches (name target : List Char) : Bool :=
  endsWithChars name (':' :: target) || name == target

/-- Abstracted quick-xml event. -/
inductive XEvent where
  | emptyE : List Char → List (List Char × List Char) → XEvent
  | startE : List Char → XEvent
  | textE : List Char → XEvent
  | endE : List Char → XEvent
deriving DecidableEq

/-- The mutable parser state of parse_section_xml (section.rs lines 71-89). -/
structure PState where
  paragraphs : List Para
  current_text : List Char
  in_text : Bool
  in_table : Bool
  in_cell : Bool
  in_caption : Bool
  current_image_ref : Option (List Char)
  table_rows : List (List HwpxCell)
  current_row : List HwpxCell
  current_cell : HwpxCell
  table_caption : List Char
  para_depth : Nat

/-- Initial parser state (section.rs lines 71-89). -/
def initPState : PState :=
  ⟨[], [], false, false, false, false, none, [], [], defaultHwpxCell, [], 0⟩

/-- Maximum of a list of Nat, 0 when empty
(models Iterator::max().unwrap_or(0)). -/
def listMaxD (l : List Nat) : Nat := l.foldr max 0

/-- Declared column count of a table (section.rs lines 347-357): maximum
over all cells of (explicit column address, defaulting to 0 when absent,
plus col_span), truncated to UINT16 by the narrowing cast at line 357
(a usize-to-u16 as-cast, which wraps mod 2 to the 16); 0 when there are
no cells. -/
def col_count_of (rows : List (List HwpxCell)) : Nat :=
  listMaxD (rows.flatten.map (fun c => c.col_addr.getD 0 + c.col_span))
    % 65536

/-- Cell resolution for one row (section.rs lines 380-417): the column
address is the explicit one if present, else the running total of previous
(address + span) in the row starting at 0; the row address is the explicit
one if present, else the row index cast to u16 (mod 2 to the 16). The
running-total update at line 416 is u16 addition, which wraps mod 2 to
the 16 (release semantics). -/
def resolveRow (row_idx : Nat) (row : List HwpxCell) : List PCell :=
  (row.foldl (fun (st : Nat × List PCell) c =>
      let col_address := c.col_addr.getD st.1
      let row_address := c.row_addr.getD (row_idx % 65536)
      ((col_address + c.col_span) % 65536,
       st.2 ++ [⟨col_address, row_address, c.col_span, c.row_span, c.text⟩]))
    (0, [])).2

/-- Cell resolution across all rows (section.rs lines 380-418). -/
def resolveCells (rows : List (List HwpxCell)) : List PCell :=
  (rows.foldl (fun (st : Nat × List PCell) row =>
      (st.1 + 1, st.2 ++ resolveRow st.1 row)) (0, [])).2

/-- create_table_paragraph_with_spans (section.rs lines 344-437), reduced
to the data the claims are about: row count, declared column count, and
the resolved cells. The row count is kept as the untruncated row-list
length; the source casts rows.len() as UINT16 at line 345, which agrees
with the list length below 65536 rows, and the properties stated about it
here concern only the non-emptiness of the accumulated row list. -/
def create_table_para (rows : List (List HwpxCell)) : Para :=
  Para.tableP rows.length (col_count_of rows) (resolveCells rows)

/-- Modelled from the claim wording for comparison only: the column count
computed from the resolved (explicit-or-inferred) addresses the source
itself assigns to the cells it emits. -/
def claim_col_count (rows : List (List HwpxCell)) : Nat :=
  listMaxD ((resolveCells rows).map (fun c => c.col_address + c.col_span))

/-- Rust str::trim on both ends (used for the table caption). -/
def trimChars (l : List Char) : List Char :=
  ((l.dropWhile Char.isWhitespace).reverse.dropWhile Char.isWhitespace).reverse

/-- Rust trim_end_matches on a newline (section.rs line 288). -/
def trimTrailingNL (l : List Char) : List Char :=
  (l.reverse.dropWhile (fun c => c == '\n')).reverse

/-- Handling of Event::Empty (section.rs lines 93-192): tab expansion into
the active text destination, cellSpan, cellAddr, img. -/
def stepEmpty (st : PState) (name : List Char)
    (attrs : List (List Char × List Char)) : PState :=
  if tagMatches name ("tab".toList) then
    let lw := tabAttrs attrs
    let t := tab_text lw.1 lw.2
    if st.in_table && st.in_caption then
      { st with table_caption := st.table_caption ++ t }
    else if st.in_table && st.in_cell then
      { st with current_cell :=
          { st.current_cell with text := st.current_cell.text ++ t } }
    else if !st.in_table then { st with current_text := st.current_text ++ t }
    else st
  else if tagMatches name ("cellSpan".toList) then
    { st with current_cell := applyCellSpanAttrs st.current_cell attrs }
  else if tagMatches name ("cellAddr".toList) then
    { st with current_cell := applyCellAddrAttrs st.current_cell attrs }
  else if tagMatches name ("img".toList) then
    { st with current_image_ref := imgRefAttrs st.current_image_ref attrs }
  else st

/-- Handling of Event::Start (section.rs lines 193-228). -/
def stepStart (st : PState) (name : List Char) : PState :=
  if tagMatches name ("p".toList) then
    let st1 := { st with para_depth := st.para_depth + 1 }
    if st1.in_table = false ∧ st1.para_depth = 1 then
      { st1 with current_text := [] }
    else st1
  else if tagMatches name ("t".toList) then { st with in_text := true }
  else if tagMatches name ("tbl".toList) then
    { st with in_table := true, table_rows := [], table_caption := [] }
  else if tagMatches name ("caption".toList) then { st with in_caption := true }
  else if tagMatches name ("tr".toList) then { st with current_row := [] }
  else if tagMatches name ("tc".toList) then
    { st with in_cell := true, current_cell := defaultHwpxCell }
  else if tagMatches name ("pic".toList) then
    { st with current_image_ref := none }
  else st

/-- Handling of Event::Text (section.rs lines 229-241): appended to exactly
one destination, priority caption, then cell, then top-level paragraph. -/
def stepText (st : PState) (s : List Char) : PState :=
  if st.in_text then
    if st.in_table && st.in_caption then
      { st with table_caption := st.table_caption ++ s }
    else if st.in_table && st.in_cell then
      { st with current_cell :=
          { st.current_cell with text := st.current_cell.text ++ s } }
    else if !st.in_table then { st with current_text := st.current_text ++ s }
    else st
  else st

/-- End of a paragraph element, first statement (section.rs lines 248-251):
a top-level paragraph with non-empty accumulated text is flushed. -/
def stepEndP1 (st : PState) : PState :=
  if st.para_depth = 1 ∧ st.in_table = false ∧ st.current_text ≠ [] then
    { st with
        paragraphs := st.paragraphs ++ [Para.textP st.current_text],
        current_text := [] }
  else st

/-- End of a paragraph element, second statement (section.rs lines 253-255):
newline between paragraphs inside a cell. -/
def stepEndP2 (st : PState) : PState :=
  if st.in_cell = true ∧ st.current_cell.text ≠ [] then
    { st with current_cell :=
        { st.current_cell with text := st.current_cell.text ++ ['\n'] } }
  else st

/-- End of a paragraph element, third statement (section.rs lines 258-260):
newline after a nested paragraph outside tables. -/
def stepEndP3 (st : PState) : PState :=
  if st.para_depth > 1 ∧ st.in_table = false ∧ st.current_text ≠ [] then
    { st with current_text := st.current_text ++ ['\n'] }
  else st

/-- End of a table element, caption flush (section.rs lines 271-274). -/
def stepEndTbl1 (st : PState) : PState :=
  if trimChars st.table_caption ≠ [] then
    { st with paragraphs := st.paragraphs ++ [Para.textP (trimChars st.table_caption)] }
  else st

/-- End of a table element, table flush (section.rs lines 275-277). -/
def stepEndTbl2 (st : PState) : PState :=
  if st.table_rows ≠ [] then
    { st with paragraphs := st.paragraphs ++ [create_table_para st.table_rows] }
  else st

/-- Saturating decrement of the paragraph depth (section.rs line 261). -/
def decDepth (st : PState) : PState :=
  { st with para_depth := st.para_depth - 1 }

/-- Flag and caption reset at the end of a table (section.rs lines 278-279). -/
def closeTbl (st : PState) : PState :=
  { st with in_table := false, table_caption := [] }

/-- Handling of Event::End (section.rs lines 242-302). -/
def stepEnd (st : PState) (name : List Char) : PState :=
  if tagMatches name ("p".toList) then
    decDepth (stepEndP3 (stepEndP2 (stepEndP1 st)))
  else if tagMatches name ("t".toList) then { st with in_text := false }
  else if tagMatches name ("caption".toList) then { st with in_caption := false }
  else if tagMatches name ("tbl".toList) then
    closeTbl (stepEndTbl2 (stepEndTbl1 st))
  else if tagMatches name ("tr".toList) then
    if st.current_row ≠ [] then
      { st with table_rows := st.table_rows ++ [st.current_row] }
    else st
  else if tagMatches name ("tc".toList) then
    { st with
        current_row := st.current_row ++
          [{ st.current_cell with text := trimTrailingNL st.current_cell.text }],
        in_cell := false }
  else if tagMatches name ("pic".toList) then
    match st.current_image_ref with
    | some r =>
        { st with
            paragraphs := st.paragraphs ++ [Para.imageP r],
            current_image_ref := none }
    | none => { st with current_image_ref := none }
  else st

/-- One event of the parse_section_xml loop. -/
def sectionStep (st : PState) (e : XEvent) : PState :=
  match e with
  | .emptyE n a => stepEmpty st n a
  | .startE n => stepStart st n
  | .textE s => stepText st s
  | .endE n => stepEnd st n

/-- parse_section_xml over an already-decoded event stream: a single fold;
the loop ends at Eof with the accumulated paragraphs (unterminated open
elements are implicitly closed). The function is total: no event aborts
the parse. -/
def parse_section_events (evs : List XEvent) : List Para :=
  (evs.foldl sectionStep initPState).paragraphs

/-! ## Theorems: declared column count (claim C1) -/

theorem mem_le_listMaxD {l : List Nat} {x : Nat} (h : x ∈ l) : x ≤ listMaxD l := by
  induction l with
  | nil => cases h
  | cons y ys ih =>
    rcases List.mem_cons.mp h with rfl | hm
    · exact le_max_left _ _
    · exact le_trans (ih hm) (le_max_right _ _)

theorem listMaxD_mem {l : List Nat} (h : l ≠ []) : listMaxD l ∈ l := by
  induction l with
  | nil => exact absurd rfl h
  | cons y ys ih =>
    cases ys with
    | nil => simp [listMaxD]
    | cons z zs =>
      have hys : (z :: zs : List Nat) ≠ [] := by simp
      rcases le_total y (listMaxD (z :: zs)) with hle | hle
      · have : listMaxD (y :: z :: zs) = listMaxD (z :: zs) := by
          simp [listMaxD] at hle ⊢
          omega
        rw [this]
        exact List.mem_cons_of_mem _ (ih hys)
      · have : listMaxD (y :: z :: zs) = y := by
          simp [listMaxD] at hle ⊢
          omega
        rw [this]
        exact List.mem_cons_self _ _

/-- Concrete row for the C1 scenario: two cells with no explicit addresses
and col_span 1. -/
def c1row : List HwpxCell :=
  [⟨"A".toList, 1, 1, none, none⟩, ⟨"B".toList, 1, 1, none, none⟩]

/-- Claim C1 counterexample: for one row of two cells with no explicit
addresses and col_span 1, the source computes declared column count 1
(it uses explicit address defaulting to 0, never the inferred address),
while the claim formula over the inferred addresses that the source itself
assigns to the emitted cells gives 2. -/
theorem c1_counterexample :
    col_count_of [c1row] = 1 ∧ claim_col_count [c1row] = 2 ∧ (1 : Nat) ≠ 2 := by
  refine ⟨rfl, rfl, by decide⟩

theorem listMaxD_lt {l : List Nat} {b : Nat} (hb : 0 < b)
    (h : ∀ x ∈ l, x < b) : listMaxD l < b := by
  induction l with
  | nil => exact hb
  | cons y ys ih =>
    simp only [listMaxD, List.foldr_cons]
    exact max_lt (h y (List.mem_cons_self _ _))
      (ih (fun x hx => h x (List.mem_cons_of_mem _ hx)))

/-- Claim C1 amended: the declared column count is the maximum over all
cells of ((explicit column address if present, otherwise 0) + col_span),
truncated to UINT16: whenever no cell value reaches 65536 the count
bounds every cell and is attained by some cell when cells exist; the
truncation is real (a cell with explicit address 65000 and col_span 1000,
both valid u16 attribute values, yields declared count 464, the value
66000 wrapped mod 2 to the 16); and a single row of address-less
col_span-1 cells always yields declared column count 1, not the number
of cells. -/
theorem c1_amended_col_count :
    (∀ (rows : List (List HwpxCell)) (c : HwpxCell), c ∈ rows.flatten →
        (∀ d ∈ rows.flatten, d.col_addr.getD 0 + d.col_span < 65536) →
        c.col_addr.getD 0 + c.col_span ≤ col_count_of rows)
    ∧ (∀ rows : List (List HwpxCell), rows.flatten ≠ [] →
        (∀ d ∈ rows.flatten, d.col_addr.getD 0 + d.col_span < 65536) →
        ∃ c ∈ rows.flatten,
          col_count_of rows = c.col_addr.getD 0 + c.col_span)
    ∧ col_count_of [[⟨[], 1000, 1, some 65000, none⟩]] = 464
    ∧ (∀ row : List HwpxCell, row ≠ [] →
        (∀ c ∈ row, c.col_addr = none ∧ c.col_span = 1) →
        col_count_of [row] = 1) := by
  refine ⟨?_, ?_, by decide, ?_⟩
  · intro rows c hc hbound
    have hlt : listMaxD (rows.flatten.map
        (fun c => c.col_addr.getD 0 + c.col_span)) < 65536 := by
      refine listMaxD_lt (by norm_num) ?_
      intro x hx
      rcases List.mem_map.mp hx with ⟨d, hd, rfl⟩
      exact hbound d hd
    unfold col_count_of
    rw [Nat.mod_eq_of_lt hlt]
    exact mem_le_listMaxD (List.mem_map_of_mem _ hc)
  · intro rows h hbound
    have hm : rows.flatten.map (fun c => c.col_addr.getD 0 + c.col_span) ≠ [] := by
      simpa using h
    have hlt : listMaxD (rows.flatten.map
        (fun c => c.col_addr.getD 0 + c.col_span)) < 65536 := by
      refine listMaxD_lt (by norm_num) ?_
      intro x hx
      rcases List.mem_map.mp hx with ⟨d, hd, rfl⟩
      exact hbound d hd
    rcases List.mem_map.mp (listMaxD_mem hm) with ⟨c, hc, he⟩
    refine ⟨c, hc, ?_⟩
    unfold col_count_of
    rw [Nat.mod_eq_of_lt hlt]
    exact he.symm
  · intro row hne hall
    have hm : row.map (fun c => c.col_addr.getD 0 + c.col_span) ≠ [] := by
      simpa using hne
    have hmem := listMaxD_mem hm
    rcases List.mem_map.mp hmem with ⟨c, hc, he⟩
    have hgood := hall c hc
    have hflat : ([row] : List (List HwpxCell)).flatten = row := by simp
    unfold col_count_of
    rw [hflat, ← he, hgood.1, hgood.2]
    decide

/-- Claim C1 witness: the amended column-count rule applied to the
concrete address-less row, both the special case and the bound. -/
theorem c1_witness :
    col_count_of [c1row] = 1
    ∧ (⟨"A".toList, 1, 1, none, none⟩ : HwpxCell).col_addr.getD 0 +
        (⟨"A".toList, 1, 1, none, none⟩ : HwpxCell).col_span
        ≤ col_count_of [c1row] :=
  ⟨c1_amended_col_count.2.2.2 c1row (by decide) (by decide),
   c1_amended_col_count.1 [c1row] _ (by decide) (by decide)⟩

/-! ## Paragraph invariant machinery (claims C8 and C10) -/

/-- The invariant claimed for emitted paragraphs: text paragraphs are
non-empty, table paragraphs have at least one row. -/
def goodPara : Para → Prop
  | .textP s => s ≠ []
  | .tableP rc _ _ => 1 ≤ rc
  | .imageP _ => True

theorem stepEmpty_paragraphs (st : PState) (n : List Char)
    (a : List (List Char × List Char)) :
    (stepEmpty st n a).paragraphs = st.paragraphs := by
  unfold stepEmpty
  repeat' split
  all_goals rfl

theorem stepStart_paragraphs (st : PState) (n : List Char) :
    (stepStart st n).paragraphs = st.paragraphs := by
  unfold stepStart
  repeat' split
  all_goals try rfl
  all_goals (dsimp only; split <;> rfl)

theorem stepText_paragraphs (st : PState) (s : List Char) :
    (stepText st s).paragraphs = st.paragraphs := by
  unfold stepText
  repeat' split
  all_goals rfl

theorem stepEndP1_tail (st : PState) :
    ∃ tail, (stepEndP1 st).paragraphs = st.paragraphs ++ tail
      ∧ ∀ p ∈ tail, goodPara p := by
  unfold stepEndP1
  split
  · rename_i h
    refine ⟨[Para.textP st.current_text], rfl, ?_⟩
    intro p hp
    simp only [List.mem_singleton] at hp
    subst hp
    exact h.2.2
  · exact ⟨[], by simp, by simp⟩

theorem stepEndP2_paragraphs (st : PState) :
    (stepEndP2 st).paragraphs = st.paragraphs := by
  unfold stepEndP2
  split <;> rfl

theorem stepEndP3_paragraphs (st : PState) :
    (stepEndP3 st).paragraphs = st.paragraphs := by
  unfold stepEndP3
  split <;> rfl

theorem stepEndTbl1_tail (st : PState) :
    ∃ tail, (stepEndTbl1 st).paragraphs = st.paragraphs ++ tail
      ∧ ∀ p ∈ tail, goodPara p := by
  unfold stepEndTbl1
  split
  · rename_i h
    refine ⟨[Para.textP (trimChars st.table_caption)], rfl, ?_⟩
    intro p hp
    simp only [List.mem_singleton] at hp
    subst hp
    exact h
  · exact ⟨[], by simp, by simp⟩

theorem stepEndTbl2_tail (st : PState) :
    ∃ tail, (stepEndTbl2 st).paragraphs = st.paragraphs ++ tail
      ∧ ∀ p ∈ tail, goodPara p := by
  unfold stepEndTbl2
  split
  · rename_i h
    refine ⟨[create_table_para st.table_rows], rfl, ?_⟩
    intro p hp
    simp only [List.mem_singleton] at hp
    subst hp
    show 1 ≤ st.table_rows.length
    exact List.length_pos.mpr h
  · exact ⟨[], by simp, by simp⟩

theorem stepEnd_tail (st : PState) (n : List Char) :
    ∃ tail, (stepEnd st n).paragraphs = st.paragraphs ++ tail
      ∧ ∀ p ∈ tail, goodPara p := by
  unfold stepEnd
  split
  · obtain ⟨t1, h1, g1⟩ := stepEndP1_tail st
    refine ⟨t1, ?_, g1⟩
    show (decDepth (stepEndP3 (stepEndP2 (stepEndP1 st)))).paragraphs = _
    have hd : ∀ x : PState, (decDepth x).paragraphs = x.paragraphs := fun _ => rfl
    rw [hd, stepEndP3_paragraphs, stepEndP2_paragraphs, h1]
  split
  · exact ⟨[], by simp, by simp⟩
  split
  · exact ⟨[], by simp, by simp⟩
  split
  · obtain ⟨t1, h1, g1⟩ := stepEndTbl1_tail st
    obtain ⟨t2, h2, g2⟩ := stepEndTbl2_tail (stepEndTbl1 st)
    refine ⟨t1 ++ t2, ?_, ?_⟩
    · show (closeTbl (stepEndTbl2 (stepEndTbl1 st))).paragraphs = _
      have hc : ∀ x : PState, (closeTbl x).paragraphs = x.paragraphs :=
        fun _ => rfl
      rw [hc, h2, h1, List.append_assoc]
    · intro p hp
      rcases List.mem_append.mp hp with h | h
      exacts [g1 p h, g2 p h]
  split
  · split
    · exact ⟨[], by simp, by simp⟩
    · exact ⟨[], by simp, by simp⟩
  split
  · exact ⟨[], by simp, by simp⟩
  split
  · rename_i heq
    cases hr : st.current_image_ref with
    | some r =>
        refine ⟨[Para.imageP r], ?_, ?_⟩
        · simp [hr]
        · intro p hp
          simp only [List.mem_singleton] at hp
          subst hp
          trivial
    | none => exact ⟨[], by simp [hr], by simp⟩
  exact ⟨[], by simp, by simp⟩

theorem sectionStep_tail (st : PState) (e : XEvent) :
    ∃ tail, (sectionStep st e).paragraphs = st.paragraphs ++ tail
      ∧ ∀ p ∈ tail, goodPara p := by
  cases e with
  | emptyE n a =>
      exact ⟨[], by simp [sectionStep, stepEmpty_paragraphs], by simp⟩
  | startE n =>
      exact ⟨[], by simp [sectionStep, stepStart_paragraphs], by simp⟩
  | textE s =>
      exact ⟨[], by simp [sectionStep, stepText_paragraphs], by simp⟩
  | endE n => exact stepEnd_tail st n

theorem foldl_section_tail (evs : List XEvent) :
    ∀ st : PState, ∃ tail,
      (evs.foldl sectionStep st).paragraphs = st.paragraphs ++ tail
      ∧ ∀ p ∈ tail, goodPara p := by
  induction evs with
  | nil => intro st; exact ⟨[], by simp, by simp⟩
  | cons e es ih =>
      intro st
      obtain ⟨t1, h1, g1⟩ := sectionStep_tail st e
      obtain ⟨t2, h2, g2⟩ := ih (sectionStep st e)
      refine ⟨t1 ++ t2, ?_, ?_⟩
      · simp only [List.foldl_cons]
        rw [h2, h1, List.append_assoc]
      · intro p hp
        rcases List.mem_append.mp hp with h | h
        exacts [g1 p h, g2 p h]

/-- Claim C10: closing a top-level paragraph with an empty accumulated
text buffer produces no Paragraph, closing a table with an empty row list
produces no table Paragraph, and consequently every text paragraph in the
parsed output has non-empty text and every table paragraph has at least
one row. -/
theorem c10_empty_flush_produces_no_paragraph :
    (∀ st : PState, st.current_text = [] →
        (stepEndP1 st).paragraphs = st.paragraphs)
    ∧ (∀ st : PState, st.table_rows = [] →
        (stepEndTbl2 st).paragraphs = st.paragraphs)
    ∧ ∀ (evs : List XEvent) (p : Para), p ∈ parse_section_events evs →
        (∀ s, p = Para.textP s → s ≠ [])
        ∧ ∀ rc cc cells, p = Para.tableP rc cc cells → 1 ≤ rc := by
  refine ⟨?_, ?_, ?_⟩
  · intro st h
    unfold stepEndP1
    rw [if_neg]
    simp [h]
  · intro st h
    unfold stepEndTbl2
    rw [if_neg]
    simp [h]
  · intro evs p hp
    have hgood : goodPara p := by
      obtain ⟨tail, ht, g⟩ := foldl_section_tail evs initPState
      unfold parse_section_events at hp
      rw [ht] at hp
      have hi : initPState.paragraphs = [] := rfl
      rw [hi] at hp
      exact g p (by simpa using hp)
    constructor
    · intro s hs
      subst hs
      exact hgood
    · intro rc cc cells hc
      subst hc
      exact hgood

/-- Concrete event stream for the C10 witness: one top-level paragraph
with text Hi. -/
def c10evs : List XEvent :=
  [.startE ("hp:p".toList), .startE ("hp:t".toList), .textE ("Hi".toList),
   .endE ("hp:t".toList), .endE ("hp:p".toList)]

/-- Claim C10 witness: the invariant applied to the concrete stream, plus
the empty-buffer flush rule applied to the initial state. -/
theorem c10_witness :
    ("Hi".toList ≠ ([] : List Char))
    ∧ (stepEndP1 initPState).paragraphs = initPState.paragraphs :=
  ⟨(c10_empty_flush_produces_no_paragraph.2.2 c10evs
      (Para.textP ("Hi".toList)) (by decide)).1 _ rfl,
   c10_empty_flush_produces_no_paragraph.1 initPState rfl⟩

/-- Claim C8 counterexample: an unparseable colAddr attribute value does
not leave the cell without an explicit address; the source stores
Some (value.parse().unwrap_or(0)) = Some 0. -/
theorem c8_counterexample :
    (applyCellAddrAttrs defaultHwpxCell
        [("colAddr".toList, "xyz".toList)]).col_addr = some 0
    ∧ (some 0 : Option Nat) ≠ none := by
  exact ⟨rfl, by decide⟩

/-- Claim C8 amended: a malformed numeric attribute never aborts the
parse, and the fallbacks are: unparseable colSpan or rowSpan gives span 1;
unparseable colAddr or rowAddr gives the explicit address Some 0 (not the
absence of an address, which happens only when the attribute is missing);
unparseable tab width gives width 0; and the event parser is total and
append-only, so any continuation of the stream still yields the complete
document parsed so far. -/
theorem c8_amended_attribute_fallbacks :
    (∀ (cell : HwpxCell) (v : List Char), parseNum u16Max v = none →
        (applyCellSpanAttrs cell [("colSpan".toList, v)]).col_span = 1
        ∧ (applyCellSpanAttrs cell [("rowSpan".toList, v)]).row_span = 1)
    ∧ (∀ (cell : HwpxCell) (v : List Char), parseNum u16Max v = none →
        (applyCellAddrAttrs cell [("colAddr".toList, v)]).col_addr = some 0
        ∧ (applyCellAddrAttrs cell [("rowAddr".toList, v)]).row_addr = some 0)
    ∧ (∀ v : List Char, parseNum u32Max v = none →
        (tabAttrs [("width".toList, v)]).2 = 0)
    ∧ ∀ (evs more : List XEvent), ∃ tail,
        parse_section_events (evs ++ more) = parse_section_events evs ++ tail := by
  have hne1 : ("rowSpan".toList : List Char) ≠ "colSpan".toList := by decide
  have hne2 : ("rowAddr".toList : List Char) ≠ "colAddr".toList := by decide
  have hne3 : ("width".toList : List Char) ≠ "leader".toList := by decide
  refine ⟨?_, ?_, ?_, ?_⟩
  · intro cell v h
    constructor
    · simp [applyCellSpanAttrs, h]
    · simp [applyCellSpanAttrs, h, hne1]
  · intro cell v h
    constructor
    · simp [applyCellAddrAttrs, h]
    · simp [applyCellAddrAttrs, h, hne2]
  · intro v h
    simp [tabAttrs, h, hne3]
  · intro evs more
    obtain ⟨tail, ht, _⟩ :=
      foldl_section_tail more (evs.foldl sectionStep initPState)
    refine ⟨tail, ?_⟩
    unfold parse_section_events
    rw [List.foldl_append, ht]

/-- Claim C8 witness: the fallbacks applied to the concrete unparseable
value xyz. -/
theorem c8_witness :
    (applyCellSpanAttrs defaultHwpxCell
        [("colSpan".toList, "xyz".toList)]).col_span = 1
    ∧ (tabAttrs [("width".toList, "xyz".toList)]).2 = 0 :=
  ⟨(c8_amended_attribute_fallbacks.1 defaultHwpxCell ("xyz".toList)
      (by decide)).1,
   c8_amended_attribute_fallbacks.2.2.1 ("xyz".toList) (by decide)⟩

/-! ## Table materializers (viewer markdown table.rs)

A viewer-side cell carries the resolved addresses and spans plus its
paragraphs; each paragraph is the list of its ParaText records, a record
being (text, control character positions). Image records do not occur in
the tables the claims are about and are omitted. -/

structure VCell where
  row_address : Nat
  col_address : Nat
  col_span : Nat
  row_span : Nat
  paragraphs : List (List (List Char × List CtrlPos))
deriving DecidableEq

structure VTable where
  row_count : Nat
  col_count : Nat
  cells : List VCell
deriving DecidableEq

/-- Comparison used by sort_by_key on
(cell_attributes.row_address, cell_attributes.col_address)
(table.rs lines 77-83 and 208-214). -/
def cellLe (a b : VCell) : Bool :=
  decide (a.row_address < b.row_address) ||
    (decide (a.row_address = b.row_address) &&
      decide (a.col_address ≤ b.col_address))

/-- Minimum of a list of Nat (models Iterator::min, None when empty). -/
def listMinOpt : List Nat → Option Nat
  | [] => none
  | x :: xs =>
    match listMinOpt xs with
    | none => some x
    | some m => some (min x m)

/-- has_merged_cells (table.rs lines 31-34): some cell has col_span
greater than 1 or row_span greater than 1. -/
def has_merged_cells (t : VTable) : Bool :=
  t.cells.any (fun c => decide (1 < c.col_span) || decide (1 < c.row_span))

/-- The four output paths of convert_table_to_markdown
(table.rs lines 11-43): the two bracketed placeholders of the degenerate
early returns, the HTML table path, and the simple markdown path. -/
inductive RenderPath where
  | dimPlaceholder : RenderPath
  | emptyPlaceholder : RenderPath
  | htmlPath : RenderPath
  | markdownPath : RenderPath
deriving DecidableEq

/-- Path selection of convert_table_to_markdown (table.rs lines 17-43):
degenerate dimensions first, then the empty cell list, then HTML when
requested or when merged cells exist, else simple markdown. -/
def select_render_path (use_html : Option Bool) (t : VTable) : RenderPath :=
  if t.row_count = 0 ∨ t.col_count = 0 then .dimPlaceholder
  else if t.cells = [] then .emptyPlaceholder
  else if use_html = some true ∨ has_merged_cells t = true then .htmlPath
  else .markdownPath

/-- Pipe escaping for markdown cells (table.rs line 547). -/
def escapePipes (l : List Char) : List Char :=
  l.foldr (fun ch acc => if ch = '|' then '\\' :: '|' :: acc else ch :: acc) []

/-- The para_text_result of one cell paragraph (table.rs lines 394-462):
every ParaText record of the paragraph is segmented and appended. -/
def mdParaText (u : Bool) (para : List (List Char × List CtrlPos)) :
    List Char :=
  (para.map (fun r => processRun u r.1 r.2)).flatten

/-- The cell_parts list of fill_cell_content (table.rs lines 352-536):
each paragraph contributes its processed text when its trim is non-empty,
and a single-space separator after every non-final paragraph. -/
def mdCellParts (u : Bool)
    (paras : List (List (List Char × List CtrlPos))) : List (List Char) :=
  paras.enum.foldl (fun acc ip =>
    let txt := mdParaText u ip.2
    let acc1 := if trimChars txt ≠ [] then acc ++ [txt] else acc
    if ip.1 < paras.length - 1 then acc1 ++ [[' ']] else acc1) []

/-- The final cell content string of fill_cell_content
(table.rs lines 538-548): parts joined, a single space when empty,
pipes escaped otherwise. -/
def md_cell_content (u : Bool) (cell : VCell) : List Char :=
  if (mdCellParts u cell.paragraphs).flatten = [] then [' ']
  else escapePipes (mdCellParts u cell.paragraphs).flatten

/-- The markdown rendering grid: row-major optional cell contents. -/
abbrev Grid : Type := List (List (Option (List Char)))

def gridGet (g : Grid) (r c : Nat) : Option (List Char) :=
  match g[r]? with
  | some row =>
    match row[c]? with
    | some v => v
    | none => none
  | none => none

def gridSet (g : Grid) (r c : Nat) (v : Option (List Char)) : Grid :=
  g.set r ((g[r]?.getD []).set c v)

/-- fill_cell_content grid writes (table.rs lines 550-577): write the
content at the top-left only when the position is still unfilled, then
fill the span rectangle, clipped to the declared bounds, with blank
fillers at still-unfilled positions. -/
def fill_cell (u : Bool) (row_count col_count : Nat) (g : Grid)
    (cell : VCell) (row col : Nat) : Grid :=
  if gridGet g row col = none then
    let g1 := gridSet g row col (some (md_cell_content u cell))
    let g2 := (List.range' (col + 1)
        (min (col + cell.col_span) col_count - (col + 1))).foldl
      (fun g c => if gridGet g row c = none then gridSet g row c (some [' '])
        else g) g1
    (List.range' (row + 1)
        (min (row + cell.row_span) row_count - (row + 1))).foldl
      (fun g r => (List.range' col
          (min (col + cell.col_span) col_count - col)).foldl
        (fun g c => if gridGet g r c = none then gridSet g r c (some [' '])
          else g) g) g2
  else g

/-- convert_table_to_markdown_simple, grid construction
(table.rs lines 184-250): min addresses default to 1 when no cells; when
all cells share the minimum row address the sorted cells are distributed
over rows by detecting each non-increase of the column address relative to
the previous cell (sentinel last_col = 65535, the u16 maximum), with the
row index clamped to row_count - 1; otherwise each cell is placed directly
at its (row_address - min_row, col_address - min_col). -/
def md_simple_grid (u : Bool) (t : VTable) : Grid :=
  let row_count := t.row_count
  let col_count := t.col_count
  let g0 : Grid :=
    (List.replicate row_count (List.replicate col_count none) :
      List (List (Option (List Char))))
  let min_row := (listMinOpt (t.cells.map (fun c => c.row_address))).getD 1
  let min_col := (listMinOpt (t.cells.map (fun c => c.col_address))).getD 1
  if t.cells.all (fun c => c.row_address == min_row) then
    ((stableSortBy cellLe t.cells).foldl
      (fun (st : Grid × Nat × Nat) cell =>
        let row_index :=
          if cell.col_address ≤ st.2.2 ∧ st.2.2 ≠ 65535 then
            if st.2.1 + 1 ≥ row_count then row_count - 1 else st.2.1 + 1
          else st.2.1
        let g :=
          if cell.col_address - min_col < col_count then
            fill_cell u row_count col_count st.1 cell row_index
              (cell.col_address - min_col)
          else st.1
        (g, row_index, cell.col_address)) (g0, 0, 65535)).1
  else
    t.cells.foldl (fun g cell =>
      if cell.row_address - min_row < row_count ∧
          cell.col_address - min_col < col_count then
        fill_cell u row_count col_count g cell
          (cell.row_address - min_row) (cell.col_address - min_col)
      else g) g0

/-- convert_table_to_markdown_simple, rendering (table.rs lines 252-275):
one pipe-delimited line per row with blank fillers for unfilled positions,
a separator line after row 0, and empty lines before and after. -/
def md_simple_output (u : Bool) (t : VTable) : List Char :=
  let g := md_simple_grid u t
  let rows := ((List.range t.row_count).map (fun r =>
    let row_data := (List.range t.col_count).map
      (fun c => (gridGet g r c).getD [' '])
    let line := "| ".toList ++
      List.intercalate (" | ".toList) row_data ++ " |".toList
    if r = 0 then
      [line, "|".toList ++ List.intercalate ("|".toList)
        (List.replicate t.col_count ("---".toList)) ++ "|".toList]
    else [line])).flatten
  List.intercalate ['\n'] ([([] : List Char)] ++ rows ++ [([] : List Char)])

/-- get_cell_content (table.rs lines 280-335): ParaText record texts with
non-empty trim, joined with single spaces; no break segmentation here. -/
def html_cell_content (cell : VCell) : List Char :=
  List.intercalate [' ']
    ((cell.paragraphs.flatten.filter
      (fun r => decide (trimChars r.1 ≠ []))).map (fun r => r.1))

/-- Minimum row address, 0 when no cells (table.rs lines 58-63). -/
def html_min_row (t : VTable) : Nat :=
  (listMinOpt (t.cells.map (fun c => c.row_address))).getD 0

/-- Minimum column address, 0 when no cells (table.rs lines 64-69). -/
def html_min_col (t : VTable) : Nat :=
  (listMinOpt (t.cells.map (fun c => c.col_address))).getD 0

/-- The processing order of convert_table_to_html (table.rs lines 77-104):
cells sorted by (row_address, col_address), then visited row group by row
group, a cell belonging to row index row_address - min_row. -/
def processSeq (t : VTable) : List (Nat × VCell) :=
  ((List.range t.row_count).map (fun r =>
    ((stableSortBy cellLe t.cells).filter
      (fun c => c.row_address - html_min_row t == r)).map
      (fun c => (r, c)))).flatten

/-- One cell of the convert_table_to_html loop (table.rs lines 104-135):
skip the cell entirely when its column index is in bounds and its top-left
position is already covered; otherwise mark the span rectangle, clipped to
the declared bounds, as covered and record
(row index, column index, cell). -/
def place_step (row_count col_count min_col : Nat)
    (st : (Nat → Nat → Bool) × List (Nat × Nat × VCell))
    (rc : Nat × VCell) : (Nat → Nat → Bool) × List (Nat × Nat × VCell) :=
  if rc.2.col_address - min_col < col_count ∧
      st.1 rc.1 (rc.2.col_address - min_col) = true then st
  else
    (fun r c => st.1 r c ||
        (decide (rc.1 ≤ r) &&
         decide (r < min (rc.1 + rc.2.row_span) row_count) &&
         decide (rc.2.col_address - min_col ≤ c) &&
         decide (c < min (rc.2.col_address - min_col + rc.2.col_span)
           col_count)),
     st.2 ++ [(rc.1, rc.2.col_address - min_col, rc.2)])

/-- Coverage resolution over the whole processing order, starting from an
all-false covered matrix and an empty placement list. -/
def place_cells (row_count col_count min_col : Nat)
    (seq : List (Nat × VCell)) :
    (Nat → Nat → Bool) × List (Nat × Nat × VCell) :=
  seq.foldl (place_step row_count col_count min_col)
    ((fun _ _ => false), [])

/-- convert_table_to_html, materialized rows (table.rs lines 89-170):
the placed cells of each row index as
(content, column index, col_span, row_span), dropping rows in which no
placed cell has non-empty trimmed content. -/
def html_rows (t : VTable) :
    List (List (List Char × Nat × Nat × Nat)) :=
  (List.range t.row_count).filterMap (fun r =>
    let entries := (((place_cells t.row_count t.col_count (html_min_col t)
        (processSeq t)).2.filter (fun e => e.1 == r)).map
      (fun e => (html_cell_content e.2.2, e.2.1, e.2.2.col_span,
        e.2.2.row_span)))
    if entries.any (fun q => decide (trimChars q.1 ≠ [])) then some entries
    else none)

/-! ## Theorems: render path selection (claim C7) -/

/-- A 1 by 1 table with one plain cell. -/
def c7table : VTable := ⟨1, 1, [⟨0, 0, 1, 1, [[("X".toList, [])]]⟩]⟩

/-- Claim C7 counterexample: a degenerate table (declared 0 by 0) with an
explicit HTML request does not take the HTML path: the early return emits
a bracketed placeholder before mode selection is reached. -/
theorem c7_counterexample :
    select_render_path (some true) ⟨0, 0, []⟩ = RenderPath.dimPlaceholder
    ∧ RenderPath.dimPlaceholder ≠ RenderPath.htmlPath := by
  exact ⟨rfl, by decide⟩

/-- Claim C7 amended: for tables with non-zero declared dimensions and a
non-empty cell list, the HTML path is selected exactly when the caller
requests HTML explicitly or some cell has col_span or row_span greater
than 1, and the markdown path exactly otherwise; degenerate tables take a
placeholder path instead. -/
theorem c7_amended_mode_selection :
    ∀ (use_html : Option Bool) (t : VTable),
      t.row_count ≠ 0 → t.col_count ≠ 0 → t.cells ≠ [] →
      (select_render_path use_html t = RenderPath.htmlPath ↔
        (use_html = some true ∨ has_merged_cells t = true))
      ∧ (select_render_path use_html t = RenderPath.markdownPath ↔
        ¬(use_html = some true ∨ has_merged_cells t = true)) := by
  intro u t h1 h2 h3
  unfold select_render_path
  rw [if_neg (by simp [h1, h2]), if_neg h3]
  by_cases h : u = some true ∨ has_merged_cells t = true
  · rw [if_pos h]
    simp [h]
  · rw [if_neg h]
    simp [h]

/-- Claim C7 witness: the amended rule applied to the concrete 1 by 1
table with no HTML request and no merged cells. -/
theorem c7_witness : select_render_path none c7table = RenderPath.markdownPath :=
  ((c7_amended_mode_selection none c7table (by decide) (by decide)
    (by decide)).2).mpr (by decide)

/-! ## Theorems: markdown row inference (claim C2) -/

/-- A span-1 cell at row address 0 with one plain text paragraph. -/
def c2cell (col : Nat) (s : List Char) : VCell := ⟨0, col, 1, 1, [[(s, [])]]⟩

/-- The C2 scenario table: declared 2 by 2, cells A at column 0, B at
column 1, C at column 0, all sharing row address 0, in that input order. -/
def c2table : VTable :=
  ⟨2, 2, [c2cell 0 ("A".toList), c2cell 1 ("B".toList),
    c2cell 0 ("C".toList)]⟩

/-- Claim C2 counterexample: the materialized grid is row 0 = A, blank and
row 1 = C, B, not row 0 = A, B and row 1 = C, blank as claimed: the cells
are sorted by (row address, column address) before row inference, which
turns the input order A, B, C into A, C, B. -/
theorem c2_counterexample :
    md_simple_grid false c2table
      = [[some ("A".toList), none], [some ("C".toList), some ("B".toList)]]
    ∧ ([[some ("A".toList), none],
        [some ("C".toList), some ("B".toList)]] : Grid)
      ≠ [[some ("A".toList), some ("B".toList)],
         [some ("C".toList), none]] := by
  exact ⟨by decide, by decide⟩

/-- Claim C2 amended: the markdown materializer first sorts the cells by
(row address, column address), giving processing order A (col 0),
C (col 0), B (col 1); the non-increase 0 to 0 at C starts inferred row 1
and B (column 1, strictly greater) stays in row 1, so the inferred rows
are A with a blank filler, then C and B, and the rendered markdown is
the corresponding pipe table. -/
theorem c2_amended_sorted_row_inference :
    stableSortBy cellLe c2table.cells
      = [c2cell 0 ("A".toList), c2cell 0 ("C".toList), c2cell 1 ("B".toList)]
    ∧ md_simple_output false c2table
      = ("\n| A |   |\n|---|---|\n| C | B |\n").toList := by
  exact ⟨by decide, by decide⟩

/-! ## Theorems: overlap resolution (claim C3) -/

theorem place_step_mono (rc cc mc : Nat)
    (st : (Nat → Nat → Bool) × List (Nat × Nat × VCell))
    (e : Nat × VCell) (r c : Nat) (h : st.1 r c = true) :
    ((place_step rc cc mc st e).1) r c = true := by
  unfold place_step
  split
  · exact h
  · simp [h]

theorem place_fold_mono (rc cc mc : Nat) (seq : List (Nat × VCell)) :
    ∀ (st : (Nat → Nat → Bool) × List (Nat × Nat × VCell)) (r c : Nat),
      st.1 r c = true →
      ((seq.foldl (place_step rc cc mc) st).1) r c = true := by
  induction seq with
  | nil => intro st r c h; exact h
  | cons e es ih =>
      intro st r c h
      exact ih _ r c (place_step_mono rc cc mc st e r c h)

theorem place_step_skip (rc cc mc : Nat)
    (st : (Nat → Nat → Bool) × List (Nat × Nat × VCell))
    (rj : Nat) (j : VCell)
    (h1 : j.col_address - mc < cc)
    (h2 : st.1 rj (j.col_address - mc) = true) :
    place_step rc cc mc st (rj, j) = st := by
  unfold place_step
  rw [if_pos ⟨h1, h2⟩]

theorem place_step_covers (rc cc mc : Nat)
    (st : (Nat → Nat → Bool) × List (Nat × Nat × VCell))
    (ri : Nat) (i : VCell) (r c : Nat)
    (hskip : ¬(i.col_address - mc < cc ∧
        st.1 ri (i.col_address - mc) = true))
    (h1 : ri ≤ r) (h2 : r < min (ri + i.row_span) rc)
    (h3 : i.col_address - mc ≤ c)
    (h4 : c < min (i.col_address - mc + i.col_span) cc) :
    ((place_step rc cc mc st (ri, i)).1) r c = true := by
  unfold place_step
  rw [if_neg hskip]
  simp [h1, h2, h3, h4]

/-- Cell K of the C3 scenario: address (0,0), col_span 2. -/
def c3k : VCell := ⟨0, 0, 2, 1, [[("K".toList, [])]]⟩

/-- Cell I of the C3 scenario: address (0,1), row_span 2; its declared
coverage is positions (0,1) and (1,1). -/
def c3i : VCell := ⟨0, 1, 1, 2, [[("I".toList, [])]]⟩

/-- Cell J of the C3 scenario: address (1,1), no spans; its top-left is
position (1,1), inside the declared coverage of I. -/
def c3j : VCell := ⟨1, 1, 1, 1, [[("J".toList, [])]]⟩

/-- The C3 scenario table: declared 2 by 2 with cells K, I, J. -/
def c3table : VTable := ⟨2, 2, [c3k, c3i, c3j]⟩

/-- Claim C3 counterexample: in c3table the declared coverages of I and J
overlap at grid position (1,1) and I precedes J in row-major processing
order, yet J is not skipped and its content J appears at (1,1) in the HTML
output: K covers the top-left of I, so I itself is skipped and never marks
(1,1) as covered, and J then claims it. First writer wins only among
effectively placed cells, not among declared coverages. -/
theorem c3_counterexample :
    processSeq c3table = [(0, c3k), (0, c3i), (1, c3j)]
    ∧ (1 < min (0 + c3i.row_span) 2 ∧ 1 < min (1 + c3i.col_span) 2)
    ∧ html_rows c3table = [[("K".toList, 0, 2, 1)], [("J".toList, 1, 1, 1)]]
    ∧ ("J".toList, 1, 1, 1) ∈ (html_rows c3table).flatten := by
  refine ⟨by decide, by decide, by decide, by decide⟩

/-- Claim C3 amended: first effective writer wins. In the HTML path, if a
cell i is processed (and not skipped) at some point of the processing
order, and the top-left position of a later cell j lies inside the
declared, bounds-clipped coverage of i, then j is skipped entirely: the
placement output with j present equals the output with j removed, so the
content of j appears nowhere. In the markdown path, a grid position that
already holds content is never overwritten: filling a cell whose top-left
is already occupied leaves the grid unchanged. A cell that is itself
skipped marks nothing, so a position inside its declared coverage can
still be claimed by a later cell (see the counterexample). -/
theorem c3_amended_first_effective_writer_wins :
    (∀ (row_count col_count min_col : Nat)
        (pre mid post : List (Nat × VCell)) (ri rj : Nat) (i j : VCell),
        ¬(i.col_address - min_col < col_count ∧
            (place_cells row_count col_count min_col pre).1 ri
              (i.col_address - min_col) = true) →
        ri ≤ rj →
        rj < min (ri + i.row_span) row_count →
        i.col_address - min_col ≤ j.col_address - min_col →
        j.col_address - min_col <
          min (i.col_address - min_col + i.col_span) col_count →
        (place_cells row_count col_count min_col
            (pre ++ (ri, i) :: mid ++ (rj, j) :: post)).2
          = (place_cells row_count col_count min_col
              (pre ++ (ri, i) :: mid ++ post)).2)
    ∧ (∀ (u : Bool) (row_count col_count : Nat) (g : Grid) (cell : VCell)
        (row col : Nat) (v : List Char),
        gridGet g row col = some v →
        fill_cell u row_count col_count g cell row col = g) := by
  constructor
  · intro rc cc mc pre mid post ri rj i j hnot hr1 hr2 hc1 hc2
    unfold place_cells at hnot ⊢
    simp only [List.foldl_append, List.foldl_cons]
    have hcov1 := place_step_covers rc cc mc
      (List.foldl (place_step rc cc mc) ((fun _ _ => false), []) pre)
      ri i rj (j.col_address - mc) hnot hr1 hr2 hc1 hc2
    have hcovm := place_fold_mono rc cc mc mid
      (place_step rc cc mc
        (List.foldl (place_step rc cc mc) ((fun _ _ => false), []) pre)
        (ri, i))
      rj (j.col_address - mc) hcov1
    have hcc : j.col_address - mc < cc := lt_of_lt_of_le hc2 (min_le_right _ _)
    rw [place_step_skip rc cc mc _ rj j hcc hcovm]
  · intro u rc cc g cell row col v h
    unfold fill_cell
    rw [if_neg]
    simp [h]

/-- Claim C3 witness: the amended rule applied concretely. Cell I placed
at (0,1) with row_span 2 covers (1,1); appending cell J there is then a
no-op for the placement output, and filling an occupied markdown grid
position leaves the grid unchanged. -/
theorem c3_witness :
    (place_cells 2 2 0 ([] ++ (0, c3i) :: [] ++ (1, c3j) :: [])).2
      = (place_cells 2 2 0 ([] ++ (0, c3i) :: [] ++ [])).2
    ∧ fill_cell false 1 1 [[some [' ']]] c3j 0 0 = [[some [' ']]] :=
  ⟨c3_amended_first_effective_writer_wins.1 2 2 0 [] [] [] 0 1 c3i c3j
      (by decide) (by decide) (by decide) (by decide) (by decide),
   c3_amended_first_effective_writer_wins.2 false 1 1 [[some [' ']]] c3j 0 0
      [' '] rfl⟩
